import Mathlib

set_option maxRecDepth 100000

/-!
Shallow embedding of the Nexodo recurrence engine
(`src/server/recurrence.py`) and verification of the frozen claims.

Conventions of the embedding:
* Python `datetime.datetime` is modelled by `DateTime` (naive, proleptic
  Gregorian, components as `Nat`), `datetime.date` by `Date`.
* Python `int` fields of a pattern are modelled by `Int` (they may be
  negative before validation); optional fields by `Option Int`.
* A raised exception (`ValueError` from `datetime`/`int`, `TypeError` from a
  `None` comparison) is modelled as `none`/absence of a result, as is the
  ordinary "no occurrence" outcome.
* The unbounded `while True` month search of `_next_monthly_by_date` is
  embedded with explicit fuel; for every input reachable from a validated
  pattern the loop terminates well inside the fuel.
-/

/-- Calendar date (proleptic Gregorian), mirroring Python `datetime.date`. -/
structure Date where
  year : Nat
  month : Nat
  day : Nat
deriving DecidableEq, Repr

/-- Naive timestamp, mirroring Python `datetime.datetime`. -/
structure DateTime where
  year : Nat
  month : Nat
  day : Nat
  hour : Nat
  minute : Nat
  second : Nat
  microsecond : Nat
deriving DecidableEq, Repr

/-- Gregorian leap-year test (`calendar.isleap`). -/
def isLeap (y : Nat) : Bool :=
  y % 4 == 0 && (y % 100 != 0 || y % 400 == 0)

/-- Length of month `m` (1..12) given leapness; 0 for an out-of-range month
(Python `calendar.monthrange` raises there; callers never rely on the 0). -/
def monthDays (leap : Bool) (m : Nat) : Nat :=
  match m with
  | 1 => 31
  | 2 => if leap then 29 else 28
  | 3 => 31
  | 4 => 30
  | 5 => 31
  | 6 => 30
  | 7 => 31
  | 8 => 31
  | 9 => 30
  | 10 => 31
  | 11 => 30
  | 12 => 31
  | _ => 0

/-- `calendar.monthrange(y, m)[1]`. -/
def daysInMonth (y m : Nat) : Nat := monthDays (isLeap y) m

/-- Days in all years before year `y` (proleptic Gregorian, year 1 based). -/
def daysBeforeYear (y : Nat) : Nat :=
  365 * (y - 1) + (y - 1) / 4 - (y - 1) / 100 + (y - 1) / 400

/-- Days in the months of year `y` strictly before month `m`. -/
def daysBeforeMonth (y m : Nat) : Nat :=
  (List.range (m - 1)).foldl (fun acc i => acc + daysInMonth y (i + 1)) 0

/-- Python `date.toordinal()`: day number with `0001-01-01 = 1`. -/
def dateOrdinal (d : Date) : Nat :=
  daysBeforeYear d.year + daysBeforeMonth d.year d.month + d.day

/-- Python `date.weekday()`: Monday = 0 .. Sunday = 6. -/
def dateWeekday (d : Date) : Nat := (dateOrdinal d + 6) % 7

/-- Successor day with month/year rollover (`date + timedelta(days=1)`). -/
def dateNextDay (d : Date) : Date :=
  if d.day < daysInMonth d.year d.month then
    { d with day := d.day + 1 }
  else if d.month < 12 then
    { year := d.year, month := d.month + 1, day := 1 }
  else
    { year := d.year + 1, month := 1, day := 1 }

/-- Predecessor day with month/year rollover (`date - timedelta(days=1)`). -/
def datePrevDay (d : Date) : Date :=
  if 1 < d.day then
    { d with day := d.day - 1 }
  else if 1 < d.month then
    { year := d.year, month := d.month - 1, day := daysInMonth d.year (d.month - 1) }
  else
    { year := d.year - 1, month := 12, day := 31 }

/-- `date + timedelta(days=n)` for `n ≥ 0`. -/
def dateAddDays (n : Nat) (d : Date) : Date :=
  match n with
  | 0 => d
  | n + 1 => dateNextDay (dateAddDays n d)

/-- `date - timedelta(days=n)` for `n ≥ 0`. -/
def dateSubDays (n : Nat) (d : Date) : Date :=
  match n with
  | 0 => d
  | n + 1 => datePrevDay (dateSubDays n d)

/-- `date + timedelta(days=n)` for a possibly negative `n`. -/
def dateAddDaysInt (n : Int) (d : Date) : Date :=
  if 0 ≤ n then dateAddDays n.toNat d else dateSubDays (-n).toNat d

/-- The `date()` part of a `datetime`. -/
def DateTime.dateOf (dt : DateTime) : Date :=
  { year := dt.year, month := dt.month, day := dt.day }

/-- Replace the date part, keeping the wall-clock time. -/
def dtWithDate (d : Date) (dt : DateTime) : DateTime :=
  { year := d.year, month := d.month, day := d.day,
    hour := dt.hour, minute := dt.minute,
    second := dt.second, microsecond := dt.microsecond }

/-- `datetime + timedelta(days=n)`: shifts the date, keeps the time. -/
def dtAddDaysInt (n : Int) (dt : DateTime) : DateTime :=
  dtWithDate (dateAddDaysInt n dt.dateOf) dt

/-- `datetime + timedelta(minutes=1)`: carry into hour and day as needed;
seconds and microseconds are unchanged. -/
def dtAddMinutes1 (dt : DateTime) : DateTime :=
  if dt.minute + 1 < 60 then
    { dt with minute := dt.minute + 1 }
  else if dt.hour + 1 < 24 then
    { dt with hour := dt.hour + 1, minute := 0 }
  else
    { dtWithDate (dateNextDay dt.dateOf) dt with hour := 0, minute := 0 }

/-- Python `datetime` lexicographic strict order. -/
def dtLt (a b : DateTime) : Bool :=
  if a.year ≠ b.year then decide (a.year < b.year)
  else if a.month ≠ b.month then decide (a.month < b.month)
  else if a.day ≠ b.day then decide (a.day < b.day)
  else if a.hour ≠ b.hour then decide (a.hour < b.hour)
  else if a.minute ≠ b.minute then decide (a.minute < b.minute)
  else if a.second ≠ b.second then decide (a.second < b.second)
  else decide (a.microsecond < b.microsecond)

/-- Python `date` lexicographic strict order. -/
def dateLt (a b : Date) : Bool :=
  if a.year ≠ b.year then decide (a.year < b.year)
  else if a.month ≠ b.month then decide (a.month < b.month)
  else decide (a.day < b.day)

/-- `datetime(y, m, d)` (midnight); `none` models the `ValueError` raised on
an out-of-range component (Python years run 1..9999). -/
def mkDateTime? (y m d : Int) : Option DateTime :=
  if 1 ≤ y ∧ y ≤ 9999 ∧ 1 ≤ m ∧ m ≤ 12 ∧ 1 ≤ d ∧ d ≤ (daysInMonth y.toNat m.toNat : Int) then
    some { year := y.toNat, month := m.toNat, day := d.toNat,
           hour := 0, minute := 0, second := 0, microsecond := 0 }
  else
    none

/-- `date(y, m, d)`; `none` models the `ValueError` on invalid components. -/
def mkDate? (y m d : Int) : Option Date :=
  if 1 ≤ y ∧ y ≤ 9999 ∧ 1 ≤ m ∧ m ≤ 12 ∧ 1 ≤ d ∧ d ≤ (daysInMonth y.toNat m.toNat : Int) then
    some { year := y.toNat, month := m.toNat, day := d.toNat }
  else
    none

/-- `datetime.replace(day=d)`; `none` models the `ValueError` when `d` is not
a day of the current month. -/
def replaceDay? (dt : DateTime) (d : Int) : Option DateTime :=
  if 1 ≤ d ∧ d ≤ (daysInMonth dt.year dt.month : Int) then
    some { dt with day := d.toNat }
  else
    none

/-- `datetime.replace(hour=h, minute=m, second=0, microsecond=0)`; `none`
models the `ValueError` on an out-of-range hour or minute. -/
def dtReplaceHM (dt : DateTime) (h m : Nat) : Option DateTime :=
  if h < 24 ∧ m < 60 then
    some { dt with hour := h, minute := m, second := 0, microsecond := 0 }
  else
    none

/-- `datetime.combine(d, time(h, m))`: seconds and microseconds are zero. -/
def dtCombine (d : Date) (h m : Nat) : DateTime :=
  { year := d.year, month := d.month, day := d.day,
    hour := h, minute := m, second := 0, microsecond := 0 }

/-- All components in the ranges Python `datetime` itself guarantees. -/
def DateTime.isValid (dt : DateTime) : Prop :=
  1 ≤ dt.year ∧ dt.year ≤ 9999 ∧ 1 ≤ dt.month ∧ dt.month ≤ 12 ∧
  1 ≤ dt.day ∧ dt.day ≤ daysInMonth dt.year dt.month ∧
  dt.hour < 24 ∧ dt.minute < 60 ∧ dt.second < 60 ∧ dt.microsecond < 1000000

instance (dt : DateTime) : Decidable dt.isValid := by
  unfold DateTime.isValid
  infer_instance

/-! ## Pattern model (`RecurrencePattern` and friends) -/

/-- Enum `RecurrenceType`. -/
inductive RecurrenceType where
  | daily
  | weekly
  | monthly
  | yearly
  | custom
deriving DecidableEq, Repr

/-- `RecurrenceType(...).value` strings. -/
def recurrenceTypeValue : RecurrenceType → String
  | .daily => "daily"
  | .weekly => "weekly"
  | .monthly => "monthly"
  | .yearly => "yearly"
  | .custom => "custom"

/-- `RecurrenceType(s)`; `none` models the `ValueError` on an unknown value. -/
def recurrenceTypeOfValue? (s : String) : Option RecurrenceType :=
  if s = "daily" then some .daily
  else if s = "weekly" then some .weekly
  else if s = "monthly" then some .monthly
  else if s = "yearly" then some .yearly
  else if s = "custom" then some .custom
  else none

/-- Enum `MonthlyType`. -/
inductive MonthlyType where
  | day_of_month
  | weekday_of_month
  | last_day
  | last_weekday
deriving DecidableEq, Repr

/-- `MonthlyType(...).value` strings. -/
def monthlyTypeValue : MonthlyType → String
  | .day_of_month => "day_of_month"
  | .weekday_of_month => "weekday_of_month"
  | .last_day => "last_day"
  | .last_weekday => "last_weekday"

/-- `MonthlyType(s)`; `none` models the `ValueError` on an unknown value. -/
def monthlyTypeOfValue? (s : String) : Option MonthlyType :=
  if s = "day_of_month" then some .day_of_month
  else if s = "weekday_of_month" then some .weekday_of_month
  else if s = "last_day" then some .last_day
  else if s = "last_weekday" then some .last_weekday
  else none

/-- The attribute record of a constructed `RecurrencePattern` object. -/
structure RecurrencePattern where
  recurrence_type : RecurrenceType
  interval : Int
  weekdays : List Int
  times_of_day : List String
  day_of_month : Option Int
  month_of_year : Option Int
  monthly_type : MonthlyType
  weekday : Option Int
  week_of_month : Option Int
  end_date : Option DateTime
  max_occurrences : Option Int
  timezone : Option String
deriving DecidableEq, Repr

/-- Python truthiness of an optional int: present and nonzero. -/
def optTruthy (o : Option Int) : Bool :=
  match o with
  | none => false
  | some v => v != 0

/-- The `weekdays` loop of `_validate_pattern`: true iff no entry is outside
0..6 (the `if self.weekdays:` guard is redundant for the empty list). -/
def weekdaysOk (l : List Int) : Bool :=
  l.all (fun d => decide (0 ≤ d) && decide (d ≤ 6))

/-- `if self.x and not lo <= self.x <= hi`: a zero value is falsy and skips
the check entirely (Python truthiness), mirrored exactly. -/
def optRangeTruthyBad (o : Option Int) (lo hi : Int) : Bool :=
  match o with
  | none => false
  | some v => if v = 0 then false else if lo ≤ v ∧ v ≤ hi then false else true

/-- `if self.weekday is not None and not 0 <= self.weekday <= 6`. -/
def optWeekdayBad (o : Option Int) : Bool :=
  match o with
  | none => false
  | some v => if 0 ≤ v ∧ v ≤ 6 then false else true

/-- `RecurrencePattern._validate_pattern`, returning the message of the first
`ValueError` raised, or `none` when the checks pass.  The `week_of_month`
test `not (-5 <= v <= 5 and v != 0)` collapses to the range test because the
truthiness guard already has `v ≠ 0`. -/
def validatePattern (p : RecurrencePattern) : Option String :=
  if p.interval < 1 then some "Interval must be at least 1"
  else if !weekdaysOk p.weekdays then some "Weekdays must be between 0 (Monday) and 6 (Sunday)"
  else if optRangeTruthyBad p.day_of_month 1 31 then some "Day of month must be between 1 and 31"
  else if optRangeTruthyBad p.month_of_year 1 12 then some "Month of year must be between 1 and 12"
  else if optWeekdayBad p.weekday then some "Weekday must be between 0 (Monday) and 6 (Sunday)"
  else if optRangeTruthyBad p.week_of_month (-5) 5 then some "Week of month must be between -5 and 5, excluding 0"
  else none

/-- `RecurrencePattern.__init__`: normalises `weekdays or []` and
`times_of_day or []`, stores the attributes and runs validation; an
`Except.error` is the raised `ValueError`. -/
def RecurrencePattern.construct
    (recurrence_type : RecurrenceType) (interval : Int)
    (weekdays : Option (List Int)) (times_of_day : Option (List String))
    (day_of_month : Option Int) (month_of_year : Option Int)
    (monthly_type : MonthlyType) (weekday : Option Int)
    (week_of_month : Option Int) (end_date : Option DateTime)
    (max_occurrences : Option Int) (timezone : Option String) :
    Except String RecurrencePattern :=
  let p : RecurrencePattern :=
    { recurrence_type := recurrence_type
      interval := interval
      weekdays := weekdays.getD []
      times_of_day := times_of_day.getD []
      day_of_month := day_of_month
      month_of_year := month_of_year
      monthly_type := monthly_type
      weekday := weekday
      week_of_month := week_of_month
      end_date := end_date
      max_occurrences := max_occurrences
      timezone := timezone }
  match validatePattern p with
  | some msg => .error msg
  | none => .ok p

/-- Classmethod `RecurrencePattern.daily`. -/
def RecurrencePattern.daily (interval : Int) (times_of_day : Option (List String)) :
    Except String RecurrencePattern :=
  RecurrencePattern.construct .daily interval none times_of_day none none
    .day_of_month none none none none none

/-- Classmethod `RecurrencePattern.weekly`. -/
def RecurrencePattern.weekly (weekdays : List Int) (interval : Int)
    (times_of_day : Option (List String)) : Except String RecurrencePattern :=
  RecurrencePattern.construct .weekly interval (some weekdays) times_of_day none none
    .day_of_month none none none none none

/-- Classmethod `RecurrencePattern.monthly_by_date`. -/
def RecurrencePattern.monthly_by_date (day_of_month : Int) (interval : Int)
    (times_of_day : Option (List String)) : Except String RecurrencePattern :=
  RecurrencePattern.construct .monthly interval none times_of_day (some day_of_month) none
    .day_of_month none none none none none

/-- Classmethod `RecurrencePattern.monthly_by_weekday`. -/
def RecurrencePattern.monthly_by_weekday (weekday : Int) (week_of_month : Int)
    (interval : Int) (times_of_day : Option (List String)) :
    Except String RecurrencePattern :=
  RecurrencePattern.construct .monthly interval none times_of_day none none
    .weekday_of_month (some weekday) (some week_of_month) none none none

/-- Classmethod `RecurrencePattern.yearly`. -/
def RecurrencePattern.yearly (month day : Int) (interval : Int)
    (times_of_day : Option (List String)) : Except String RecurrencePattern :=
  RecurrencePattern.construct .yearly interval none times_of_day (some day) (some month)
    .day_of_month none none none none none

/-! ## Calculator (`RecurrenceCalculator`) -/

/-- Value of a decimal digit character. -/
def charDigit? (c : Char) : Option Nat :=
  if '0' ≤ c ∧ c ≤ '9' then some (c.toNat - '0'.toNat) else none

/-- `str.split(sep)` for a one-character separator, over the character
list. -/
def splitChar (sep : Char) : List Char → List (List Char)
  | [] => [[]]
  | c :: rest =>
    let r := splitChar sep rest
    if c = sep then [] :: r
    else
      match r with
      | [] => [[c]]
      | g :: gs => (c :: g) :: gs

/-- `int(s)` on a plain digit string; `none` on anything else (Python also
accepts signs and whitespace, but a negative or huge hour/minute would make
the subsequent `replace` raise, which is modelled as `none` as well). -/
def strToNat? (cs : List Char) : Option Nat :=
  if cs = [] then none
  else
    cs.foldl
      (fun acc c =>
        match acc, charDigit? c with
        | some n, some d => some (n * 10 + d)
        | _, _ => none)
      (some 0)

/-- Parse one `times_of_day` entry the way the source does:
`parts = s.split(':')`, `hour = int(parts[0])`,
`minute = int(parts[1]) if len(parts) > 1 else 0`; extra parts are ignored.
`none` models the `ValueError` from `int`. -/
def parseTimeStr (s : String) : Option (Nat × Nat) :=
  match splitChar ':' s.data with
  | [] => none
  | [h] => (strToNat? h).map (fun hv => (hv, 0))
  | h :: m :: _ =>
    match strToNat? h, strToNat? m with
    | some hv, some mv => some (hv, mv)
    | _, _ => none

/-- The shared `for time_str in times:` scan: each time of day is applied to
`base` (with seconds and microseconds zeroed) and returned if strictly after
`after`.  Outer `none` models a raised exception, `some none` means the loop
finished without returning. -/
def findTodayTime (times : List String) (base after : DateTime) :
    Option (Option DateTime) :=
  match times with
  | [] => some none
  | t :: rest =>
    match parseTimeStr t with
    | none => none
    | some (h, m) =>
      match dtReplaceHM base h m with
      | none => none
      | some occ =>
        if dtLt after occ then some (some occ) else findTodayTime rest base after

/-- The shared "use first time of day for the next date" fallback:
`times_of_day[0]` parsed and applied to `nd` with `replace(hour, minute,
second=0, microsecond=0)`. -/
def firstTimeOf (times : List String) (nd : DateTime) : Option DateTime :=
  match times with
  | [] => none
  | t0 :: _ =>
    match parseTimeStr t0 with
    | none => none
    | some (h, m) => dtReplaceHM nd h m

/-- `RecurrenceCalculator._apply_times_of_day`. -/
def applyTimesOfDay (p : RecurrencePattern) (next_date after_date : DateTime) :
    Option DateTime :=
  if p.times_of_day = [] then some next_date
  else if next_date.dateOf = after_date.dateOf then
    match findTodayTime p.times_of_day next_date after_date with
    | none => none
    | some (some occ) => some occ
    | some none => firstTimeOf p.times_of_day next_date
  else firstTimeOf p.times_of_day next_date

/-- `RecurrenceCalculator._next_daily`. -/
def nextDaily (p : RecurrencePattern) (after_date : DateTime) : Option DateTime :=
  if p.times_of_day = [] then some (dtAddDaysInt p.interval after_date)
  else
    match findTodayTime p.times_of_day after_date after_date with
    | none => none
    | some (some occ) => some occ
    | some none =>
      match p.times_of_day with
      | [] => none
      | t0 :: _ =>
        match parseTimeStr t0 with
        | none => none
        | some (h, m) =>
          if h < 24 ∧ m < 60 then
            some (dtCombine (dateAddDaysInt p.interval after_date.dateOf) h m)
          else none

/-- Python `min(list)` for a non-empty list (callers guard emptiness). -/
def listMinD : List Int → Int
  | [] => 0
  | x :: xs => xs.foldl min x

/-- `RecurrenceCalculator._next_weekly`. -/
def nextWeekly (p : RecurrencePattern) (after_date : DateTime) : Option DateTime :=
  if p.weekdays = [] then none
  else
    let current_weekday : Int := dateWeekday after_date.dateOf
    match (p.weekdays.insertionSort (· ≤ ·)).find? (fun w => decide (current_weekday < w)) with
    | some weekday =>
      applyTimesOfDay p (dtAddDaysInt (weekday - current_weekday) after_date) after_date
    | none =>
      let days_until_next_week := 7 * p.interval - current_weekday - 1
      let days_ahead := days_until_next_week + listMinD p.weekdays
      applyTimesOfDay p (dtAddDaysInt days_ahead after_date) after_date

/-- The `for i in range(interval): month += 1; wrap` advancement shared by
the three monthly helpers. -/
def advanceMonths : Nat → Int × Int → Int × Int
  | 0, ym => ym
  | n + 1, (y, m) =>
    advanceMonths n (if m + 1 > 12 then (y + 1, 1) else (y, m + 1))

/-- The `while True` month walk of `_next_monthly_by_date`, with fuel: try
`datetime(y, m, target)`, on `ValueError` advance by `interval` months (the
source resets any overflowing month to 1). -/
def monthSearch (target_day interval : Int) : Nat → Int → Int → Option DateTime
  | 0, _, _ => none
  | fuel + 1, y, m =>
    match mkDateTime? y m target_day with
    | some nd => some nd
    | none =>
      if m + interval > 12 then monthSearch target_day interval fuel (y + 1) 1
      else monthSearch target_day interval fuel y (m + interval)

/-- `RecurrenceCalculator._next_monthly_by_date`. -/
def nextMonthlyByDate (p : RecurrencePattern) (after_date : DateTime) : Option DateTime :=
  let target_day := p.day_of_month.getD 0
  let searchFrom : Option DateTime :=
    let ym := advanceMonths p.interval.toNat ((after_date.year : Int), (after_date.month : Int))
    match monthSearch target_day p.interval 100 ym.1 ym.2 with
    | some nd => applyTimesOfDay p nd after_date
    | none => none
  match replaceDay? after_date target_day with
  | some nd => if dtLt after_date nd then applyTimesOfDay p nd after_date else searchFrom
  | none => searchFrom

/-- `RecurrenceCalculator._find_weekday_in_month`. -/
def findWeekdayInMonth (year month weekday week_of_month : Int) : Option Date :=
  match mkDate? year month 1 with
  | none => none
  | some first_day =>
    if 0 < week_of_month then
      let days_ahead := weekday - (dateWeekday first_day : Int)
      let days_ahead := if days_ahead < 0 then days_ahead + 7 else days_ahead
      let first_occurrence := dateAddDaysInt days_ahead first_day
      let target_date := dateAddDaysInt (7 * (week_of_month - 1)) first_occurrence
      if (target_date.month : Int) = month then some target_date else none
    else
      match (if month = 12 then mkDate? (year + 1) 1 1 else mkDate? year (month + 1) 1) with
      | none => none
      | some next_first =>
        let last_day := datePrevDay next_first
        let days_back := ((dateWeekday last_day : Int) - weekday).emod 7
        let last_occurrence := dateAddDaysInt (-days_back) last_day
        let target_date := dateAddDaysInt (7 * (week_of_month + 1)) last_occurrence
        if (target_date.month : Int) = month ∧ ¬dateLt target_date first_day then
          some target_date
        else none

/-- `RecurrenceCalculator._next_monthly_by_weekday`.  A `week_of_month` of
`None` would make the source raise a `TypeError` inside the helper; that is
modelled as absence. -/
def nextMonthlyByWeekday (p : RecurrencePattern) (after_date : DateTime) : Option DateTime :=
  match p.weekday, p.week_of_month with
  | some w, some wom =>
    let second : Option DateTime :=
      let ym := advanceMonths p.interval.toNat ((after_date.year : Int), (after_date.month : Int))
      match findWeekdayInMonth ym.1 ym.2 w wom with
      | some td => applyTimesOfDay p (dtWithDate td after_date) after_date
      | none => none
    match findWeekdayInMonth (after_date.year : Int) (after_date.month : Int) w wom with
    | some td =>
      if dateLt after_date.dateOf td then
        applyTimesOfDay p (dtWithDate td after_date) after_date
      else second
    | none => second
  | _, _ => none

/-- `RecurrenceCalculator._next_monthly_last_day`. -/
def nextMonthlyLastDay (p : RecurrencePattern) (after_date : DateTime) : Option DateTime :=
  let second : Option DateTime :=
    let ym := advanceMonths p.interval.toNat ((after_date.year : Int), (after_date.month : Int))
    match mkDateTime? ym.1 ym.2 (daysInMonth ym.1.toNat ym.2.toNat : Int) with
    | some nd => applyTimesOfDay p nd after_date
    | none => none
  match replaceDay? after_date (daysInMonth after_date.year after_date.month : Int) with
  | some nd => if dtLt after_date nd then applyTimesOfDay p nd after_date else second
  | none => second

/-- `RecurrenceCalculator._next_monthly`: the conditional dispatch chain;
`LAST_WEEKDAY` and guard failures fall through to `None`. -/
def nextMonthly (p : RecurrencePattern) (after_date : DateTime) : Option DateTime :=
  if p.monthly_type = .day_of_month ∧ optTruthy p.day_of_month then
    nextMonthlyByDate p after_date
  else if p.monthly_type = .weekday_of_month ∧ p.weekday.isSome then
    nextMonthlyByWeekday p after_date
  else if p.monthly_type = .last_day then
    nextMonthlyLastDay p after_date
  else none

/-- `RecurrenceCalculator._next_yearly`. -/
def nextYearly (p : RecurrencePattern) (after_date : DateTime) : Option DateTime :=
  if ¬(optTruthy p.month_of_year ∧ optTruthy p.day_of_month) then none
  else
    let target_month := p.month_of_year.getD 0
    let target_day := p.day_of_month.getD 0
    let next_year := (after_date.year : Int) + p.interval
    let elseBranch : Option DateTime :=
      match mkDateTime? next_year target_month target_day with
      | some nd => applyTimesOfDay p nd after_date
      | none =>
        if target_month = 2 ∧ target_day = 29 then
          match mkDateTime? next_year 2 28 with
          | some nd => applyTimesOfDay p nd after_date
          | none => none
        else none
    match mkDateTime? (after_date.year : Int) target_month target_day with
    | some nd => if dtLt after_date nd then applyTimesOfDay p nd after_date else elseBranch
    | none => elseBranch

/-- The kind dispatch of `get_next_occurrence` (after the end-date guard). -/
def dispatchNext (p : RecurrencePattern) (after_date : DateTime) : Option DateTime :=
  match p.recurrence_type with
  | .daily => nextDaily p after_date
  | .weekly => nextWeekly p after_date
  | .monthly => nextMonthly p after_date
  | .yearly => nextYearly p after_date
  | .custom => none

/-- `RecurrenceCalculator.get_next_occurrence`. -/
def getNextOccurrence (p : RecurrencePattern) (after_date : DateTime) : Option DateTime :=
  match p.end_date with
  | some ed => if dtLt after_date ed then dispatchNext p after_date else none
  | none => dispatchNext p after_date

/-- `pattern.max_occurrences and count >= pattern.max_occurrences`. -/
def maxOccReached (o : Option Int) (count : Int) : Bool :=
  match o with
  | none => false
  | some mo => mo != 0 && decide (mo ≤ count)

/-- The `while` loop of `get_occurrences_in_range`.  The fuel is
`max_count - count`, so fuel 0 is exactly the `count < max_count` exit. -/
def getOccAux (p : RecurrencePattern) (end_date : DateTime) :
    Nat → DateTime → Int → List DateTime
  | 0, _, _ => []
  | fuel + 1, current_date, count =>
    if dtLt current_date end_date then
      match getNextOccurrence p current_date with
      | none => []
      | some occ =>
        if dtLt end_date occ then []
        else
          let newCur :=
            if p.times_of_day.length > 1 then dtAddMinutes1 occ else dtAddDaysInt 1 occ
          if maxOccReached p.max_occurrences (count + 1) then [occ]
          else occ :: getOccAux p end_date fuel newCur (count + 1)
    else []

/-- `RecurrenceCalculator.get_occurrences_in_range`. -/
def getOccurrencesInRange (p : RecurrencePattern) (start_date end_date : DateTime)
    (max_count : Int) : List DateTime :=
  getOccAux p end_date max_count.toNat start_date 0

/-! ## Serialization (`to_dict` / `from_dict`) -/

/-- Two fixed-width digit groups, as `f"{n:02d}"` renders an in-range value. -/
def pad2 (n : Nat) : List Char :=
  [Nat.digitChar (n / 10), Nat.digitChar (n % 10)]

/-- Four fixed-width digit groups (`f"{n:04d}"` for `n < 10000`). -/
def pad4 (n : Nat) : List Char :=
  [Nat.digitChar (n / 1000), Nat.digitChar (n / 100 % 10),
   Nat.digitChar (n / 10 % 10), Nat.digitChar (n % 10)]

/-- Six fixed-width digit groups (`f"{n:06d}"` for `n < 1000000`). -/
def pad6 (n : Nat) : List Char :=
  [Nat.digitChar (n / 100000), Nat.digitChar (n / 10000 % 10),
   Nat.digitChar (n / 1000 % 10), Nat.digitChar (n / 100 % 10),
   Nat.digitChar (n / 10 % 10), Nat.digitChar (n % 10)]

/-- `datetime.isoformat()`: `YYYY-MM-DDTHH:MM:SS`, plus `.ffffff` exactly
when the microsecond field is nonzero. -/
def isoChars (dt : DateTime) : List Char :=
  pad4 dt.year ++ '-' :: pad2 dt.month ++ '-' :: pad2 dt.day ++
  'T' :: pad2 dt.hour ++ ':' :: pad2 dt.minute ++ ':' :: pad2 dt.second ++
  (if dt.microsecond = 0 then [] else '.' :: pad6 dt.microsecond)

/-- `datetime.isoformat()` as a string. -/
def isoformat (dt : DateTime) : String := String.mk (isoChars dt)

/-- Read exactly two digits. -/
def read2 : List Char → Option (Nat × List Char)
  | a :: b :: rest =>
    match charDigit? a, charDigit? b with
    | some x, some y => some (x * 10 + y, rest)
    | _, _ => none
  | _ => none

/-- Read exactly four digits. -/
def read4 : List Char → Option (Nat × List Char)
  | a :: b :: c :: d :: rest =>
    match charDigit? a, charDigit? b, charDigit? c, charDigit? d with
    | some x, some y, some z, some w => some (x * 1000 + y * 100 + z * 10 + w, rest)
    | _, _, _, _ => none
  | _ => none

/-- Read exactly six digits. -/
def read6 : List Char → Option (Nat × List Char)
  | a :: b :: c :: d :: e :: f :: rest =>
    match charDigit? a, charDigit? b, charDigit? c, charDigit? d,
          charDigit? e, charDigit? f with
    | some u, some v, some x, some y, some z, some w =>
      some (u * 100000 + v * 10000 + x * 1000 + y * 100 + z * 10 + w, rest)
    | _, _, _, _, _, _ => none
  | _ => none

/-- Consume one expected separator character. -/
def expectCh (c : Char) : List Char → Option (List Char)
  | x :: rest => if x = c then some rest else none
  | [] => none

/-- `datetime.fromisoformat` on the grammar `isoformat` emits (the stdlib
accepts a superset; only this shape is ever produced by `to_dict`).  `none`
models the `ValueError` on anything else. -/
def fromisoChars (cs : List Char) : Option DateTime := do
  let (y, cs) ← read4 cs
  let cs ← expectCh '-' cs
  let (mo, cs) ← read2 cs
  let cs ← expectCh '-' cs
  let (d, cs) ← read2 cs
  let cs ← expectCh 'T' cs
  let (h, cs) ← read2 cs
  let cs ← expectCh ':' cs
  let (mi, cs) ← read2 cs
  let cs ← expectCh ':' cs
  let (s, cs) ← read2 cs
  match cs with
  | [] => some ⟨y, mo, d, h, mi, s, 0⟩
  | '.' :: cs2 =>
    match read6 cs2 with
    | some (us, []) => some ⟨y, mo, d, h, mi, s, us⟩
    | _ => none
  | _ => none

/-- `datetime.fromisoformat` on strings. -/
def fromisoformat (s : String) : Option DateTime := fromisoChars s.data

/-- The plain dictionary produced by `RecurrencePattern.to_dict` (all keys
are always present). -/
structure PatternDict where
  recurrence_type : String
  interval : Int
  weekdays : List Int
  times_of_day : List String
  day_of_month : Option Int
  month_of_year : Option Int
  monthly_type : String
  weekday : Option Int
  week_of_month : Option Int
  end_date : Option String
  max_occurrences : Option Int
  timezone : Option String
deriving DecidableEq, Repr

/-- `RecurrencePattern.to_dict`. -/
def RecurrencePattern.toDict (p : RecurrencePattern) : PatternDict :=
  { recurrence_type := recurrenceTypeValue p.recurrence_type
    interval := p.interval
    weekdays := p.weekdays
    times_of_day := p.times_of_day
    day_of_month := p.day_of_month
    month_of_year := p.month_of_year
    monthly_type := monthlyTypeValue p.monthly_type
    weekday := p.weekday
    week_of_month := p.week_of_month
    end_date := p.end_date.map isoformat
    max_occurrences := p.max_occurrences
    timezone := p.timezone }

/-- `RecurrencePattern.from_dict`; `none` models any raised error (unknown
enum value, unparsable `end_date`, or failed re-validation).  The
`if data.get('end_date')` truthiness makes an empty string behave as
absent. -/
def RecurrencePattern.fromDict (d : PatternDict) : Option RecurrencePattern := do
  let rt ← recurrenceTypeOfValue? d.recurrence_type
  let mt ← monthlyTypeOfValue? d.monthly_type
  let ed ← match d.end_date with
    | none => some none
    | some s => if s = "" then some none else (fromisoformat s).map some
  match RecurrencePattern.construct rt d.interval (some d.weekdays) (some d.times_of_day)
      d.day_of_month d.month_of_year mt d.weekday d.week_of_month ed
      d.max_occurrences d.timezone with
  | .ok p => some p
  | .error _ => none


/-! ## Concrete patterns and instants used to settle the claims -/

/-- The pattern built by `RecurrencePattern.weekly([0])`. -/
def wkMonday : RecurrencePattern :=
  { recurrence_type := .weekly, interval := 1, weekdays := [0], times_of_day := [],
    day_of_month := none, month_of_year := none, monthly_type := .day_of_month,
    weekday := none, week_of_month := none, end_date := none,
    max_occurrences := none, timezone := none }

/-- Sunday, 2025-10-12 at 10:00. -/
def sunday20251012 : DateTime := ⟨2025, 10, 12, 10, 0, 0, 0⟩

/-- A daily pattern with `end_date = 2025-10-15T00:00`. -/
def dailyWithEnd : RecurrencePattern :=
  { recurrence_type := .daily, interval := 1, weekdays := [], times_of_day := [],
    day_of_month := none, month_of_year := none, monthly_type := .day_of_month,
    weekday := none, week_of_month := none, end_date := some ⟨2025, 10, 15, 0, 0, 0, 0⟩,
    max_occurrences := none, timezone := none }

/-- The pattern built by `RecurrencePattern.monthly_by_weekday(0, 0)`. -/
def pWom0 : RecurrencePattern :=
  { recurrence_type := .monthly, interval := 1, weekdays := [], times_of_day := [],
    day_of_month := none, month_of_year := none, monthly_type := .weekday_of_month,
    weekday := some 0, week_of_month := some 0, end_date := none,
    max_occurrences := none, timezone := none }

/-- The pattern built by `RecurrencePattern.monthly_by_date(0)`. -/
def pDom0 : RecurrencePattern :=
  { recurrence_type := .monthly, interval := 1, weekdays := [], times_of_day := [],
    day_of_month := some 0, month_of_year := none, monthly_type := .day_of_month,
    weekday := none, week_of_month := none, end_date := none,
    max_occurrences := none, timezone := none }

/-- The pattern built by `RecurrencePattern.yearly(0, 15)`. -/
def pMoy0 : RecurrencePattern :=
  { recurrence_type := .yearly, interval := 1, weekdays := [], times_of_day := [],
    day_of_month := some 15, month_of_year := some 0, monthly_type := .day_of_month,
    weekday := none, week_of_month := none, end_date := none,
    max_occurrences := none, timezone := none }

/-- The pattern built by `RecurrencePattern.monthly_by_date(31)`. -/
def m31pat : RecurrencePattern :=
  { recurrence_type := .monthly, interval := 1, weekdays := [], times_of_day := [],
    day_of_month := some 31, month_of_year := none, monthly_type := .day_of_month,
    weekday := none, week_of_month := none, end_date := none,
    max_occurrences := none, timezone := none }

/-- The pattern built by `RecurrencePattern.monthly_by_weekday(0, 5)` (5th Monday). -/
def p5thMonday : RecurrencePattern :=
  { recurrence_type := .monthly, interval := 1, weekdays := [], times_of_day := [],
    day_of_month := none, month_of_year := none, monthly_type := .weekday_of_month,
    weekday := some 0, week_of_month := some 5, end_date := none,
    max_occurrences := none, timezone := none }

/-- The pattern built by `RecurrencePattern.weekly([0, 2, 4])`. -/
def wk024 : RecurrencePattern :=
  { recurrence_type := .weekly, interval := 1, weekdays := [0, 2, 4], times_of_day := [],
    day_of_month := none, month_of_year := none, monthly_type := .day_of_month,
    weekday := none, week_of_month := none, end_date := none,
    max_occurrences := none, timezone := none }

/-- The pattern built by `RecurrencePattern.yearly(2, 29)`. -/
def y229 : RecurrencePattern :=
  { recurrence_type := .yearly, interval := 1, weekdays := [], times_of_day := [],
    day_of_month := some 29, month_of_year := some 2, monthly_type := .day_of_month,
    weekday := none, week_of_month := none, end_date := none,
    max_occurrences := none, timezone := none }

/-- The pattern built by `RecurrencePattern.daily(times_of_day=["09:00", "21:00"])`. -/
def d0921 : RecurrencePattern :=
  { recurrence_type := .daily, interval := 1, weekdays := [], times_of_day := ["09:00", "21:00"],
    day_of_month := none, month_of_year := none, monthly_type := .day_of_month,
    weekday := none, week_of_month := none, end_date := none,
    max_occurrences := none, timezone := none }

/-- A representative fully-populated valid pattern (serialization witness). -/
def c9sample : RecurrencePattern :=
  { recurrence_type := .weekly, interval := 2, weekdays := [0, 2, 4],
    times_of_day := ["09:00"], day_of_month := none, month_of_year := none,
    monthly_type := .day_of_month, weekday := none, week_of_month := none,
    end_date := some ⟨2026, 1, 2, 3, 4, 5, 6⟩, max_occurrences := some 7,
    timezone := some "UTC" }

/-- Success condition of `_validate_pattern` stated per field, as the
counterexample forces it to be amended: zero values of `day_of_month`,
`month_of_year` and `week_of_month` are falsy and escape their range
checks. -/
def amendedValidationOk (p : RecurrencePattern) : Prop :=
  1 ≤ p.interval ∧
  (∀ w ∈ p.weekdays, 0 ≤ w ∧ w ≤ 6) ∧
  (∀ v, p.day_of_month = some v → v ≠ 0 → 1 ≤ v ∧ v ≤ 31) ∧
  (∀ v, p.month_of_year = some v → v ≠ 0 → 1 ≤ v ∧ v ≤ 12) ∧
  (∀ v, p.weekday = some v → 0 ≤ v ∧ v ≤ 6) ∧
  (∀ v, p.week_of_month = some v → v ≠ 0 → -5 ≤ v ∧ v ≤ 5)

/-! ## Helper lemmas -/

theorem dtReplaceHM_eq {dt : DateTime} {h m : Nat} {r : DateTime}
    (hr : dtReplaceHM dt h m = some r) :
    r = { dt with hour := h, minute := m, second := 0, microsecond := 0 } := by
  unfold dtReplaceHM at hr
  split at hr
  · exact ((Option.some.injEq _ _).mp hr).symm
  · cases hr

theorem findTodayTime_props {ts : List String} {base after r : DateTime}
    (h : findTodayTime ts base after = some (some r)) :
    r.dateOf = base.dateOf ∧ r.second = 0 ∧ r.microsecond = 0 := by
  induction ts with
  | nil => simp [findTodayTime] at h
  | cons t rest ih =>
    unfold findTodayTime at h
    split at h
    · cases h
    · split at h
      · cases h
      · rename_i occ hocc
        split at h
        · have hr : occ = r := by
            have h1 := (Option.some.injEq _ _).mp h
            exact (Option.some.injEq _ _).mp h1
          subst hr
          rw [dtReplaceHM_eq hocc]
          exact ⟨rfl, rfl, rfl⟩
        · exact ih h

theorem firstTimeOf_props {ts : List String} {nd r : DateTime}
    (h : firstTimeOf ts nd = some r) :
    r.dateOf = nd.dateOf ∧ r.second = 0 ∧ r.microsecond = 0 := by
  unfold firstTimeOf at h
  split at h
  · cases h
  · split at h
    · cases h
    · rw [dtReplaceHM_eq h]
      exact ⟨rfl, rfl, rfl⟩

theorem applyTimesOfDay_date {p : RecurrencePattern} {nd ad r : DateTime}
    (h : applyTimesOfDay p nd ad = some r) : r.dateOf = nd.dateOf := by
  unfold applyTimesOfDay at h
  split at h
  · rw [← (Option.some.injEq _ _).mp h]
  · split at h
    · split at h
      · cases h
      · exact ((Option.some.injEq _ _).mp h) ▸ (findTodayTime_props (by assumption)).1
      · exact (firstTimeOf_props h).1
    · exact (firstTimeOf_props h).1

theorem applyTimesOfDay_zeroSec {p : RecurrencePattern} {nd ad r : DateTime}
    (hts : p.times_of_day ≠ []) (h : applyTimesOfDay p nd ad = some r) :
    r.second = 0 ∧ r.microsecond = 0 := by
  unfold applyTimesOfDay at h
  split at h
  · exact absurd (by assumption) hts
  · split at h
    · split at h
      · cases h
      · exact ((Option.some.injEq _ _).mp h) ▸ (findTodayTime_props (by assumption)).2
      · exact (firstTimeOf_props h).2
    · exact (firstTimeOf_props h).2

theorem foldl_min_le_init (xs : List Int) (a : Int) : xs.foldl min a ≤ a := by
  induction xs generalizing a with
  | nil => exact le_refl a
  | cons x xs ih => exact le_trans (ih (min a x)) (min_le_left a x)

theorem foldl_min_le_mem {xs : List Int} {w : Int} (hw : w ∈ xs) (a : Int) :
    xs.foldl min a ≤ w := by
  induction xs generalizing a with
  | nil => cases hw
  | cons x xs ih =>
    rcases List.mem_cons.mp hw with h | h
    · subst h
      exact le_trans (foldl_min_le_init xs (min a w)) (min_le_right a w)
    · exact ih h (min a x)

theorem foldl_min_mem (xs : List Int) (a : Int) :
    xs.foldl min a = a ∨ xs.foldl min a ∈ xs := by
  induction xs generalizing a with
  | nil => exact Or.inl rfl
  | cons x xs ih =>
    simp only [List.foldl_cons]
    rcases le_total a x with hax | hxa
    · rw [min_eq_left hax]
      rcases ih a with h | h
      · exact Or.inl h
      · exact Or.inr (List.mem_cons_of_mem x h)
    · rw [min_eq_right hxa]
      rcases ih x with h | h
      · exact Or.inr (by rw [h]; exact List.mem_cons_self x xs)
      · exact Or.inr (List.mem_cons_of_mem x h)

theorem listMinD_le {l : List Int} {w : Int} (hw : w ∈ l) : listMinD l ≤ w := by
  cases l with
  | nil => cases hw
  | cons x xs =>
    rcases List.mem_cons.mp hw with h | h
    · subst h
      exact foldl_min_le_init xs w
    · exact foldl_min_le_mem h x

theorem listMinD_mem {l : List Int} (h : l ≠ []) : listMinD l ∈ l := by
  cases l with
  | nil => exact absurd rfl h
  | cons x xs =>
    rcases foldl_min_mem xs x with h1 | h1
    · exact List.mem_cons.mpr (Or.inl h1)
    · exact List.mem_cons.mpr (Or.inr h1)

theorem listMinD_eq {l : List Int} {m0 : Int} (hm : m0 ∈ l)
    (hlb : ∀ w ∈ l, m0 ≤ w) : listMinD l = m0 :=
  le_antisymm (listMinD_le hm) (hlb _ (listMinD_mem (List.ne_nil_of_mem hm)))

theorem find?_first_gt {l : List Int} {c w0 : Int}
    (hs : l.Sorted (· ≤ ·)) (hmem : w0 ∈ l) (hgt : c < w0)
    (hmin : ∀ w ∈ l, c < w → w0 ≤ w) :
    l.find? (fun w => decide (c < w)) = some w0 := by
  induction l with
  | nil => cases hmem
  | cons x xs ih =>
    rw [List.sorted_cons] at hs
    obtain ⟨hx, hxs⟩ := hs
    by_cases hcx : c < x
    · have h1 : w0 ≤ x := hmin x (List.mem_cons_self x xs) hcx
      have h2 : x ≤ w0 := by
        rcases List.mem_cons.mp hmem with h | h
        · omega
        · exact hx w0 h
      have hd : (decide (c < x)) = true := decide_eq_true hcx
      simp only [List.find?, hd]
      exact congrArg some (by omega)
    · have hd : (decide (c < x)) = false := by simpa using hcx
      simp only [List.find?, hd]
      apply ih hxs
      · rcases List.mem_cons.mp hmem with h | h
        · exact absurd (h ▸ hgt) hcx
        · exact h
      · exact fun w hw hcw => hmin w (List.mem_cons_of_mem _ hw) hcw

theorem daysInMonth_le31 (y m : Nat) : daysInMonth y m ≤ 31 := by
  unfold daysInMonth monthDays
  split
  any_goals omega
  split <;> omega

theorem charDigit?_digitChar {k : Nat} (h : k < 10) :
    charDigit? (Nat.digitChar k) = some k := by
  interval_cases k <;> decide

theorem read2_pad2 {n : Nat} (h : n < 100) (rest : List Char) :
    read2 (pad2 n ++ rest) = some (n, rest) := by
  have h1 : n / 10 < 10 := by omega
  have h2 : n % 10 < 10 := by omega
  simp only [pad2, List.cons_append, List.nil_append, read2,
    charDigit?_digitChar h1, charDigit?_digitChar h2]
  have : n / 10 * 10 + n % 10 = n := by omega
  rw [this]

theorem read4_pad4 {n : Nat} (h : n < 10000) (rest : List Char) :
    read4 (pad4 n ++ rest) = some (n, rest) := by
  have h1 : n / 1000 < 10 := by omega
  have h2 : n / 100 % 10 < 10 := by omega
  have h3 : n / 10 % 10 < 10 := by omega
  have h4 : n % 10 < 10 := by omega
  simp only [pad4, List.cons_append, List.nil_append, read4,
    charDigit?_digitChar h1, charDigit?_digitChar h2,
    charDigit?_digitChar h3, charDigit?_digitChar h4]
  have : n / 1000 * 1000 + n / 100 % 10 * 100 + n / 10 % 10 * 10 + n % 10 = n := by omega
  rw [this]

theorem read6_pad6 {n : Nat} (h : n < 1000000) (rest : List Char) :
    read6 (pad6 n ++ rest) = some (n, rest) := by
  have h1 : n / 100000 < 10 := by omega
  have h2 : n / 10000 % 10 < 10 := by omega
  have h3 : n / 1000 % 10 < 10 := by omega
  have h4 : n / 100 % 10 < 10 := by omega
  have h5 : n / 10 % 10 < 10 := by omega
  have h6 : n % 10 < 10 := by omega
  simp only [pad6, List.cons_append, List.nil_append, read6,
    charDigit?_digitChar h1, charDigit?_digitChar h2, charDigit?_digitChar h3,
    charDigit?_digitChar h4, charDigit?_digitChar h5, charDigit?_digitChar h6]
  have : n / 100000 * 100000 + n / 10000 % 10 * 10000 + n / 1000 % 10 * 1000 +
      n / 100 % 10 * 100 + n / 10 % 10 * 10 + n % 10 = n := by omega
  rw [this]

theorem expectCh_cons (c : Char) (rest : List Char) :
    expectCh c (c :: rest) = some rest := by
  simp [expectCh]

set_option maxHeartbeats 2000000 in
theorem fromiso_iso {dt : DateTime} (hv : dt.isValid) :
    fromisoformat (isoformat dt) = some dt := by
  obtain ⟨h1, h2, h3, h4, h5, h6, h7, h8, h9, h10⟩ := hv
  have hy : dt.year < 10000 := by omega
  have hmo : dt.month < 100 := by omega
  have hd : dt.day < 100 := by
    have := daysInMonth_le31 dt.year dt.month
    omega
  have hh : dt.hour < 100 := by omega
  have hmi : dt.minute < 100 := by omega
  have hs : dt.second < 100 := by omega
  show fromisoChars (isoChars dt) = some dt
  unfold isoChars fromisoChars
  by_cases hus : dt.microsecond = 0
  · rw [if_pos hus]
    simp only [List.append_assoc, List.cons_append, List.append_nil]
    rw [read4_pad4 hy]
    simp only [Option.bind_eq_bind, Option.some_bind, expectCh_cons]
    rw [read2_pad2 hmo]
    simp only [Option.some_bind, expectCh_cons]
    rw [read2_pad2 hd]
    simp only [Option.some_bind, expectCh_cons]
    rw [read2_pad2 hh]
    simp only [Option.some_bind, expectCh_cons]
    rw [read2_pad2 hmi]
    simp only [Option.some_bind, expectCh_cons]
    rw [← List.append_nil (pad2 dt.second), read2_pad2 hs]
    simp only [Option.some_bind]
    rw [← hus]
  · rw [if_neg hus]
    simp only [List.append_assoc, List.cons_append]
    rw [read4_pad4 hy]
    simp only [Option.bind_eq_bind, Option.some_bind, expectCh_cons]
    rw [read2_pad2 hmo]
    simp only [Option.some_bind, expectCh_cons]
    rw [read2_pad2 hd]
    simp only [Option.some_bind, expectCh_cons]
    rw [read2_pad2 hh]
    simp only [Option.some_bind, expectCh_cons]
    rw [read2_pad2 hmi]
    simp only [Option.some_bind, expectCh_cons]
    rw [read2_pad2 hs]
    simp only [Option.some_bind]
    rw [← List.append_nil (pad6 dt.microsecond), read6_pad6 h10]

theorem weekdaysOk_iff {l : List Int} :
    weekdaysOk l = true ↔ ∀ w ∈ l, 0 ≤ w ∧ w ≤ 6 := by
  simp [weekdaysOk, List.all_eq_true]

theorem optRangeTruthyBad_eq_false {o : Option Int} {lo hi : Int} :
    optRangeTruthyBad o lo hi = false ↔
      ∀ v, o = some v → v ≠ 0 → lo ≤ v ∧ v ≤ hi := by
  cases o with
  | none => simp [optRangeTruthyBad]
  | some v =>
    by_cases h0 : v = 0
    · simp [optRangeTruthyBad, h0]
    · by_cases hr : lo ≤ v ∧ v ≤ hi
      · simp [optRangeTruthyBad, h0, hr]
      · simp only [optRangeTruthyBad, if_neg h0, if_neg hr]
        constructor
        · intro h
          cases h
        · intro h
          exact absurd (h v rfl h0) hr

theorem optWeekdayBad_eq_false {o : Option Int} :
    optWeekdayBad o = false ↔ ∀ v, o = some v → 0 ≤ v ∧ v ≤ 6 := by
  cases o with
  | none => simp [optWeekdayBad]
  | some v =>
    by_cases hr : 0 ≤ v ∧ v ≤ 6
    · simp [optWeekdayBad, hr]
    · simp only [optWeekdayBad, if_neg hr]
      constructor
      · intro h
        cases h
      · intro h
        exact absurd (h v rfl) hr

theorem recurrenceTypeValue_roundtrip (rt : RecurrenceType) :
    recurrenceTypeOfValue? (recurrenceTypeValue rt) = some rt := by
  cases rt <;> rfl

theorem monthlyTypeValue_roundtrip (mt : MonthlyType) :
    monthlyTypeOfValue? (monthlyTypeValue mt) = some mt := by
  cases mt <;> rfl

theorem isoformat_ne_empty (dt : DateTime) : isoformat dt ≠ "" := by
  intro h
  have hdata : (isoformat dt).data = ("" : String).data := by rw [h]
  simp only [isoformat, isoChars, pad4, List.cons_append] at hdata
  cases hdata

theorem monthSearch_day {t i : Int} :
    ∀ (fuel : Nat) {y m : Int} {nd : DateTime},
      monthSearch t i fuel y m = some nd → (nd.day : Int) = t := by
  intro fuel
  induction fuel with
  | zero =>
    intro y m nd h
    cases h
  | succ fuel ih =>
    intro y m nd h
    unfold monthSearch at h
    split at h
    · rename_i nd0 hmk
      unfold mkDateTime? at hmk
      split at hmk
      · rename_i hc
        cases hmk
        cases h
        simp only
        omega
      · cases hmk
    · split at h
      · exact ih h
      · exact ih h

theorem getOccAux_length (p : RecurrencePattern) (e : DateTime) :
    ∀ (fuel : Nat) (cur : DateTime) (count : Int),
      (getOccAux p e fuel cur count).length ≤ fuel := by
  intro fuel
  induction fuel with
  | zero =>
    intro cur count
    simp [getOccAux]
  | succ fuel ih =>
    intro cur count
    unfold getOccAux
    split
    · split
      · simp
      · split
        · simp
        · split <;> split
          · simp only [List.length_singleton]
            omega
          · simp only [List.length_cons]
            exact Nat.succ_le_succ (ih _ _)
          · simp only [List.length_singleton]
            omega
          · simp only [List.length_cons]
            exact Nat.succ_le_succ (ih _ _)
    · simp

theorem getOccAux_mem_le (p : RecurrencePattern) (e : DateTime) :
    ∀ (fuel : Nat) (cur : DateTime) (count : Int) (o : DateTime),
      o ∈ getOccAux p e fuel cur count → dtLt e o = false := by
  intro fuel
  induction fuel with
  | zero =>
    intro cur count o h
    simp [getOccAux] at h
  | succ fuel ih =>
    intro cur count o h
    unfold getOccAux at h
    split at h
    · split at h
      · cases h
      · rename_i occ hocc
        split at h
        · cases h
        · rename_i hend
          split at h <;> split at h
          · rw [List.mem_singleton.mp h]
            simpa using hend
          · rcases List.mem_cons.mp h with h1 | h1
            · subst h1
              simpa using hend
            · exact ih _ _ _ h1
          · rw [List.mem_singleton.mp h]
            simpa using hend
          · rcases List.mem_cons.mp h with h1 | h1
            · subst h1
              simpa using hend
            · exact ih _ _ _ h1
    · cases h

theorem getOccAux_maxOcc {p : RecurrencePattern} {mo : Int}
    (hmo : p.max_occurrences = some mo) (hpos : 0 < mo) (e : DateTime) :
    ∀ (fuel : Nat) (cur : DateTime) (count : Int), count < mo →
      (getOccAux p e fuel cur count).length ≤ (mo - count).toNat := by
  intro fuel
  induction fuel with
  | zero =>
    intro cur count hc
    simp [getOccAux]
  | succ fuel ih =>
    intro cur count hc
    unfold getOccAux
    split
    · split
      · simp
      · split
        · simp
        · split <;> split
          · simp only [List.length_singleton]
            omega
          · rename_i occ heq hend htimes hreach
            have hcount : count + 1 < mo := by
              unfold maxOccReached at hreach
              rw [hmo] at hreach
              simp only [Bool.and_eq_true, bne_iff_ne, decide_eq_true_eq] at hreach
              by_cases hle : mo ≤ count + 1
              · exact absurd ⟨by omega, hle⟩ hreach
              · omega
            have h2 := ih (dtAddMinutes1 occ) (count + 1) hcount
            simp only [List.length_cons]
            omega
          · simp only [List.length_singleton]
            omega
          · rename_i occ heq hend htimes hreach
            have hcount : count + 1 < mo := by
              unfold maxOccReached at hreach
              rw [hmo] at hreach
              simp only [Bool.and_eq_true, bne_iff_ne, decide_eq_true_eq] at hreach
              by_cases hle : mo ≤ count + 1
              · exact absurd ⟨by omega, hle⟩ hreach
              · omega
            have h2 := ih (dtAddDaysInt 1 occ) (count + 1) hcount
            simp only [List.length_cons]
            omega
    · simp

/-! ## Claims -/

/-- C1: the claim says `next_occurrence(P, T)` is none or strictly greater
than `T`, in particular for a Weekly pattern when `T` is on or after the last
configured weekday (e.g. `weekdays=[0]` with `T` on a Sunday).  The code
violates this: `weekly([0])` evaluated at Sunday 2025-10-12T10:00 returns
that very instant (the else-branch formula
`7*interval - cw - 1 + min(weekdays)` yields 0 days ahead), so the result is
not strictly greater than `T`. -/
theorem c1_weekly_sunday_not_strictly_greater :
    RecurrencePattern.weekly [0] 1 none = .ok wkMonday ∧
    dateWeekday sunday20251012.dateOf = 6 ∧
    getNextOccurrence wkMonday sunday20251012 = some sunday20251012 ∧
    dtLt sunday20251012 sunday20251012 = false :=
  ⟨rfl, by decide, by decide, by decide⟩

/-- C2 counterexample: from 2025-10-14T12:00, which is before the configured
`end_date` 2025-10-15T00:00, the daily pattern returns 2025-10-15T12:00 — an
instant at/after `end_date` — refuting "every instant it returns is strictly
before end_date". -/
theorem c2_occurrence_at_or_after_end_date :
    dailyWithEnd.end_date = some ⟨2025, 10, 15, 0, 0, 0, 0⟩ ∧
    dtLt ⟨2025, 10, 14, 12, 0, 0, 0⟩ ⟨2025, 10, 15, 0, 0, 0, 0⟩ = true ∧
    getNextOccurrence dailyWithEnd ⟨2025, 10, 14, 12, 0, 0, 0⟩ =
      some ⟨2025, 10, 15, 12, 0, 0, 0⟩ ∧
    dtLt ⟨2025, 10, 15, 12, 0, 0, 0⟩ ⟨2025, 10, 15, 0, 0, 0, 0⟩ = false :=
  ⟨rfl, by decide, by decide, by decide⟩

/-- C2 (amended): with `end_date` set, `next_occurrence` returns none
whenever `after ≥ end_date`; this precondition check is the only enforcement
of `end_date`, and an occurrence at or after `end_date` may still be
returned when `after < end_date`. -/
theorem c2_none_when_after_ge_end (p : RecurrencePattern) (after ed : DateTime)
    (h1 : p.end_date = some ed) (h2 : dtLt after ed = false) :
    getNextOccurrence p after = none := by
  unfold getNextOccurrence
  rw [h1]
  simp [h2]

theorem c2_none_when_after_ge_end_witness :
    dailyWithEnd.end_date = some ⟨2025, 10, 15, 0, 0, 0, 0⟩ ∧
    dtLt ⟨2025, 10, 16, 0, 0, 0, 0⟩ ⟨2025, 10, 15, 0, 0, 0, 0⟩ = false ∧
    getNextOccurrence dailyWithEnd ⟨2025, 10, 16, 0, 0, 0, 0⟩ = none :=
  ⟨rfl, by decide, c2_none_when_after_ge_end dailyWithEnd _ _ rfl (by decide)⟩

/-- C3 counterexample: constructing with `week_of_month = 0`,
`day_of_month = 0` or `month_of_year = 0` is NOT a construction-time error:
Python truthiness (`if self.x and ...`) skips the range check for a zero
value, so all three constructions succeed. -/
theorem c3_zero_values_pass_validation :
    RecurrencePattern.monthly_by_weekday 0 0 1 none = .ok pWom0 ∧
    RecurrencePattern.monthly_by_date 0 1 none = .ok pDom0 ∧
    RecurrencePattern.yearly 0 15 1 none = .ok pMoy0 ∧
    pWom0.week_of_month = some 0 ∧
    pDom0.day_of_month = some 0 ∧
    pMoy0.month_of_year = some 0 :=
  ⟨rfl, rfl, rfl, rfl, rfl, rfl⟩

/-- C3 (amended): pattern construction fails with a validation error if and
only if `interval < 1`, some `weekdays` entry is outside 0..6, `weekday` is
present and outside 0..6, or `day_of_month` / `month_of_year` /
`week_of_month` is present, nonzero and outside its range (1..31, 1..12,
−5..5 respectively); zero values of those three fields are falsy in Python
and are accepted.  Validation runs only at construction, so a validly
constructed pattern never fails validation later. -/
theorem c3_validation_characterization (p : RecurrencePattern) :
    validatePattern p = none ↔ amendedValidationOk p := by
  unfold validatePattern amendedValidationOk
  split_ifs with hI hW hD hM hwd hwom
  · exact iff_of_false (by simp) (by rintro ⟨hi, -⟩; omega)
  · refine iff_of_false (by simp) ?_
    rintro ⟨-, hw, -⟩
    rw [Bool.not_eq_true'] at hW
    rw [weekdaysOk_iff.mpr hw] at hW
    cases hW
  · refine iff_of_false (by simp) ?_
    rintro ⟨-, -, hd, -⟩
    rw [optRangeTruthyBad_eq_false.mpr hd] at hD
    cases hD
  · refine iff_of_false (by simp) ?_
    rintro ⟨-, -, -, hm, -⟩
    rw [optRangeTruthyBad_eq_false.mpr hm] at hM
    cases hM
  · refine iff_of_false (by simp) ?_
    rintro ⟨-, -, -, -, hv, -⟩
    rw [optWeekdayBad_eq_false.mpr hv] at hwd
    cases hwd
  · refine iff_of_false (by simp) ?_
    rintro ⟨-, -, -, -, -, hv⟩
    rw [optRangeTruthyBad_eq_false.mpr hv] at hwom
    cases hwom
  · refine iff_of_true rfl ⟨by omega, ?_, ?_, ?_, ?_, ?_⟩
    · refine weekdaysOk_iff.mp ?_
      revert hW
      cases weekdaysOk p.weekdays <;> simp
    · refine optRangeTruthyBad_eq_false.mp ?_
      revert hD
      cases optRangeTruthyBad p.day_of_month 1 31 <;> simp
    · refine optRangeTruthyBad_eq_false.mp ?_
      revert hM
      cases optRangeTruthyBad p.month_of_year 1 12 <;> simp
    · refine optWeekdayBad_eq_false.mp ?_
      revert hwd
      cases optWeekdayBad p.weekday <;> simp
    · refine optRangeTruthyBad_eq_false.mp ?_
      revert hwom
      cases optRangeTruthyBad p.week_of_month (-5) 5 <;> simp

theorem c3_validation_characterization_witness :
    validatePattern pWom0 = none ↔ amendedValidationOk pWom0 :=
  c3_validation_characterization pWom0

/-- C4: Monthly ByDayOfMonth tries `target_day` in after's month and uses it
when that date exists and is later than `after`; otherwise it advances by
`interval` months and keeps advancing until a month containing `target_day`
is found, never clamping to the last valid day (every returned occurrence has
day = target_day); concretely `monthly_by_date(31)` from 2025-01-15T12:00
yields 2025-01-31T12:00 and from 2025-01-31T00:01 yields 2025-03-31T00:00. -/
theorem c4_monthly_by_date_behavior :
    (RecurrencePattern.monthly_by_date 31 1 none = .ok m31pat ∧
     getNextOccurrence m31pat ⟨2025, 1, 15, 12, 0, 0, 0⟩ =
       some ⟨2025, 1, 31, 12, 0, 0, 0⟩ ∧
     getNextOccurrence m31pat ⟨2025, 1, 31, 0, 1, 0, 0⟩ =
       some ⟨2025, 3, 31, 0, 0, 0, 0⟩) ∧
    (∀ (p : RecurrencePattern) (after : DateTime) (d : Int) (nd : DateTime),
       p.recurrence_type = .monthly → p.monthly_type = .day_of_month →
       p.day_of_month = some d → d ≠ 0 → p.end_date = none →
       replaceDay? after d = some nd → dtLt after nd = true →
       getNextOccurrence p after = applyTimesOfDay p nd after) ∧
    (∀ (p : RecurrencePattern) (after : DateTime) (d : Int) (r : DateTime),
       p.recurrence_type = .monthly → p.monthly_type = .day_of_month →
       p.day_of_month = some d → p.end_date = none →
       getNextOccurrence p after = some r → (r.day : Int) = d) := by
  refine ⟨⟨rfl, by decide, by decide⟩, ?_, ?_⟩
  · intro p after d nd hrt hmt hdom hdne hed hrep hlt
    unfold getNextOccurrence dispatchNext nextMonthly nextMonthlyByDate
    rw [hed, hrt, hmt, hdom]
    have htr : optTruthy (some d) = true := by simp [optTruthy, hdne]
    rw [if_pos ⟨rfl, htr⟩]
    dsimp only [Option.getD]
    rw [hrep]
    dsimp only
    rw [hlt, if_pos rfl]
  · intro p after d r hrt hmt hdom hed hres
    unfold getNextOccurrence at hres
    rw [hed] at hres
    unfold dispatchNext at hres
    rw [hrt] at hres
    unfold nextMonthly at hres
    rw [hmt, hdom] at hres
    have hMS : ∀ {y m : Int} {nd2 : DateTime},
        monthSearch d p.interval 100 y m = some nd2 →
        ∀ {r' : DateTime}, applyTimesOfDay p nd2 after = some r' →
        (r'.day : Int) = d := by
      intro y m nd2 hms r' hap
      have h1 := monthSearch_day _ hms
      have h3 : r'.day = nd2.day := congrArg Date.day (applyTimesOfDay_date hap)
      omega
    by_cases hd0 : d = 0
    · rw [if_neg (by simp [optTruthy, hd0])] at hres
      rw [if_neg (by simp)] at hres
      rw [if_neg (by simp)] at hres
      cases hres
    · have htr : optTruthy (some d) = true := by simp [optTruthy, hd0]
      rw [if_pos ⟨rfl, htr⟩] at hres
      unfold nextMonthlyByDate at hres
      rw [hdom] at hres
      dsimp only [Option.getD] at hres
      split at hres
      · rename_i nd hrep
        split at hres
        · unfold replaceDay? at hrep
          split at hrep
          · rename_i hc
            cases hrep
            have h3 : r.day = d.toNat := congrArg Date.day (applyTimesOfDay_date hres)
            omega
          · cases hrep
        · split at hres
          · rename_i nd2 hms
            exact hMS hms hres
          · cases hres
      · split at hres
        · rename_i nd2 hms
          exact hMS hms hres
        · cases hres

theorem c4_monthly_by_date_behavior_witness :
    getNextOccurrence m31pat ⟨2025, 1, 15, 12, 0, 0, 0⟩ =
      some ⟨2025, 1, 31, 12, 0, 0, 0⟩ ∧
    (((⟨2025, 1, 31, 12, 0, 0, 0⟩ : DateTime).day : Int) = 31) :=
  ⟨by decide,
   c4_monthly_by_date_behavior.2.2 m31pat ⟨2025, 1, 15, 12, 0, 0, 0⟩ 31
     ⟨2025, 1, 31, 12, 0, 0, 0⟩ rfl rfl rfl rfl (by decide)⟩

/-- C5 counterexample: for the 5th-Monday pattern `monthly_by_weekday(0, 5)`
from 2025-04-01T12:00 the code returns none even though 2025-06-30 is a 5th
Monday of a later month — it does not "continue advancing by interval months
until a month containing the ordinal is found". -/
theorem c5_counterexample_stops_after_one_advance :
    RecurrencePattern.monthly_by_weekday 0 5 1 none = .ok p5thMonday ∧
    getNextOccurrence p5thMonday ⟨2025, 4, 1, 12, 0, 0, 0⟩ = none ∧
    findWeekdayInMonth 2025 6 0 5 = some ⟨2025, 6, 30⟩ ∧
    dateWeekday ⟨2025, 6, 30⟩ = 0 :=
  ⟨rfl, by decide, by decide, by decide⟩

/-- C5 (amended): ByWeekdayOfMonth tries the ordinal in after's month, then
advances by `interval` months exactly once and tries only that month: the
result is none iff the current month's ordinal is absent or not later than
`after`, and the single advanced month has no such ordinal.  The search never
loops and never raises, but it also never looks further than that one
advanced month. -/
theorem c5_monthly_by_weekday_two_month_search :
    ∀ (p : RecurrencePattern) (after : DateTime) (w wom : Int),
      p.recurrence_type = .monthly → p.monthly_type = .weekday_of_month →
      p.weekday = some w → p.week_of_month = some wom →
      p.end_date = none → p.times_of_day = [] →
      (getNextOccurrence p after = none ↔
        ((∀ td, findWeekdayInMonth (after.year : Int) (after.month : Int) w wom = some td →
            dateLt after.dateOf td = false) ∧
         findWeekdayInMonth
           (advanceMonths p.interval.toNat ((after.year : Int), (after.month : Int))).1
           (advanceMonths p.interval.toNat ((after.year : Int), (after.month : Int))).2
           w wom = none)) := by
  intro p after w wom hrt hmt hw hwom hed hts
  have hap : ∀ nd : DateTime, applyTimesOfDay p nd after = some nd := by
    intro nd
    unfold applyTimesOfDay
    rw [hts]
    simp
  unfold getNextOccurrence
  rw [hed]
  unfold dispatchNext
  rw [hrt]
  unfold nextMonthly
  rw [hmt]
  rw [if_neg (by simp)]
  rw [if_pos ⟨rfl, by rw [hw]; rfl⟩]
  unfold nextMonthlyByWeekday
  rw [hw, hwom]
  dsimp only
  cases hf : findWeekdayInMonth (after.year : Int) (after.month : Int) w wom with
  | some td =>
    dsimp only
    by_cases hlt : dateLt after.dateOf td = true
    · rw [if_pos hlt, hap]
      refine iff_of_false (by simp) ?_
      rintro ⟨hA, -⟩
      have := hA td rfl
      rw [hlt] at this
      cases this
    · rw [if_neg hlt]
      have hA : ∀ td', some td = some td' → dateLt after.dateOf td' = false := by
        intro td' h
        cases h
        revert hlt
        cases dateLt after.dateOf td <;> simp
      cases hf2 : findWeekdayInMonth
          (advanceMonths p.interval.toNat ((after.year : Int), (after.month : Int))).1
          (advanceMonths p.interval.toNat ((after.year : Int), (after.month : Int))).2
          w wom with
      | some td2 =>
        dsimp only
        rw [hap]
        exact iff_of_false (by simp) (by rintro ⟨-, hB⟩; cases hB)
      | none =>
        dsimp only
        exact iff_of_true rfl ⟨hA, rfl⟩
  | none =>
    dsimp only
    have hA : ∀ td', (none : Option Date) = some td' → dateLt after.dateOf td' = false := by
      intro td' h
      cases h
    cases hf2 : findWeekdayInMonth
        (advanceMonths p.interval.toNat ((after.year : Int), (after.month : Int))).1
        (advanceMonths p.interval.toNat ((after.year : Int), (after.month : Int))).2
        w wom with
    | some td2 =>
      dsimp only
      rw [hap]
      exact iff_of_false (by simp) (by rintro ⟨-, hB⟩; cases hB)
    | none =>
      dsimp only
      exact iff_of_true rfl ⟨hA, rfl⟩

theorem c5_monthly_by_weekday_two_month_search_witness :
    getNextOccurrence p5thMonday ⟨2025, 4, 1, 12, 0, 0, 0⟩ = none := by
  refine (c5_monthly_by_weekday_two_month_search p5thMonday ⟨2025, 4, 1, 12, 0, 0, 0⟩ 0 5
    rfl rfl rfl rfl rfl rfl).mpr ⟨?_, by decide⟩
  intro td h
  rw [show findWeekdayInMonth (((⟨2025, 4, 1, 12, 0, 0, 0⟩ : DateTime).year : Int))
      (((⟨2025, 4, 1, 12, 0, 0, 0⟩ : DateTime).month : Int)) 0 5 = none from by decide] at h
  cases h

/-- C6: Weekly: with cw = after.weekday(), if some configured weekday exceeds
cw, the occurrence date is after.date + (w0 − cw) days for the smallest such
weekday w0; otherwise it is after.date + (7·interval − cw − 1 + min(weekdays))
days; concretely weekly([0,2,4]) from Tuesday 2025-10-14T12:00 yields
Wednesday 2025-10-15T12:00. -/
theorem c6_weekly_formula :
    (RecurrencePattern.weekly [0, 2, 4] 1 none = .ok wk024 ∧
     getNextOccurrence wk024 ⟨2025, 10, 14, 12, 0, 0, 0⟩ =
       some ⟨2025, 10, 15, 12, 0, 0, 0⟩) ∧
    (∀ (p : RecurrencePattern) (after : DateTime) (w0 : Int) (r : DateTime),
       p.recurrence_type = .weekly → p.end_date = none →
       w0 ∈ p.weekdays → ((dateWeekday after.dateOf : Int) < w0) →
       (∀ w ∈ p.weekdays, (dateWeekday after.dateOf : Int) < w → w0 ≤ w) →
       getNextOccurrence p after = some r →
       r.dateOf = (dtAddDaysInt (w0 - (dateWeekday after.dateOf : Int)) after).dateOf) ∧
    (∀ (p : RecurrencePattern) (after : DateTime) (m0 : Int) (r : DateTime),
       p.recurrence_type = .weekly → p.end_date = none →
       m0 ∈ p.weekdays → (∀ w ∈ p.weekdays, m0 ≤ w) →
       (∀ w ∈ p.weekdays, ¬((dateWeekday after.dateOf : Int) < w)) →
       getNextOccurrence p after = some r →
       r.dateOf =
         (dtAddDaysInt (7 * p.interval - (dateWeekday after.dateOf : Int) - 1 + m0)
           after).dateOf) := by
  refine ⟨⟨rfl, by decide⟩, ?_, ?_⟩
  · intro p after w0 r hrt hed hmem hgt hmin hres
    unfold getNextOccurrence at hres
    rw [hed] at hres
    unfold dispatchNext at hres
    rw [hrt] at hres
    unfold nextWeekly at hres
    rw [if_neg (List.ne_nil_of_mem hmem)] at hres
    dsimp only at hres
    have hperm := List.perm_insertionSort (· ≤ ·) p.weekdays
    have hsorted := List.sorted_insertionSort (· ≤ ·) p.weekdays
    have hfind := find?_first_gt hsorted (hperm.mem_iff.mpr hmem) hgt
      (fun w hw hcw => hmin w (hperm.mem_iff.mp hw) hcw)
    rw [hfind] at hres
    exact applyTimesOfDay_date hres
  · intro p after m0 r hrt hed hmem hmin hnone hres
    unfold getNextOccurrence at hres
    rw [hed] at hres
    unfold dispatchNext at hres
    rw [hrt] at hres
    unfold nextWeekly at hres
    rw [if_neg (List.ne_nil_of_mem hmem)] at hres
    dsimp only at hres
    have hperm := List.perm_insertionSort (· ≤ ·) p.weekdays
    have hfindnone : (p.weekdays.insertionSort (· ≤ ·)).find?
        (fun w => decide ((dateWeekday after.dateOf : Int) < w)) = none := by
      apply List.find?_eq_none.mpr
      intro x hx
      simpa using hnone x (hperm.mem_iff.mp hx)
    rw [hfindnone] at hres
    dsimp only at hres
    rw [listMinD_eq hmem hmin] at hres
    exact applyTimesOfDay_date hres

theorem c6_weekly_formula_witness :
    getNextOccurrence wk024 ⟨2025, 10, 14, 12, 0, 0, 0⟩ =
      some ⟨2025, 10, 15, 12, 0, 0, 0⟩ ∧
    (⟨2025, 10, 15, 12, 0, 0, 0⟩ : DateTime).dateOf =
      (dtAddDaysInt (2 - ((dateWeekday (⟨2025, 10, 14, 12, 0, 0, 0⟩ : DateTime).dateOf : Int)))
        ⟨2025, 10, 14, 12, 0, 0, 0⟩).dateOf :=
  ⟨by decide,
   c6_weekly_formula.2.1 wk024 ⟨2025, 10, 14, 12, 0, 0, 0⟩ 2 ⟨2025, 10, 15, 12, 0, 0, 0⟩
     rfl rfl (by decide) (by decide) (by decide) (by decide)⟩

/-- C7: Yearly: the calculator tries month_of_year/day_of_month in after's
year and uses it if later than after, else uses year after.year + interval;
when the target day does not exist in that next year and the target is
Feb 29, it falls back to day 28 of February of that year rather than skipping
the year or raising; concretely yearly(2,29) from 2024-02-29T12:01 returns
2025-02-28T00:00, a February date of a subsequent year. -/
theorem c7_yearly_behavior :
    (RecurrencePattern.yearly 2 29 1 none = .ok y229 ∧
     getNextOccurrence y229 ⟨2024, 2, 29, 12, 1, 0, 0⟩ =
       some ⟨2025, 2, 28, 0, 0, 0, 0⟩ ∧
     (⟨2025, 2, 28, 0, 0, 0, 0⟩ : DateTime).month = 2) ∧
    (∀ (p : RecurrencePattern) (after : DateTime) (m d : Int) (nd : DateTime),
       p.recurrence_type = .yearly → p.month_of_year = some m → m ≠ 0 →
       p.day_of_month = some d → d ≠ 0 → p.end_date = none →
       mkDateTime? (after.year : Int) m d = some nd → dtLt after nd = true →
       getNextOccurrence p after = applyTimesOfDay p nd after) ∧
    (∀ (p : RecurrencePattern) (after : DateTime) (m d : Int) (nd : DateTime),
       p.recurrence_type = .yearly → p.month_of_year = some m → m ≠ 0 →
       p.day_of_month = some d → d ≠ 0 → p.end_date = none →
       (∀ nd0, mkDateTime? (after.year : Int) m d = some nd0 → dtLt after nd0 = false) →
       mkDateTime? ((after.year : Int) + p.interval) m d = some nd →
       getNextOccurrence p after = applyTimesOfDay p nd after) ∧
    (∀ (p : RecurrencePattern) (after : DateTime),
       p.recurrence_type = .yearly → p.month_of_year = some 2 →
       p.day_of_month = some 29 → p.end_date = none →
       (∀ nd0, mkDateTime? (after.year : Int) 2 29 = some nd0 → dtLt after nd0 = false) →
       mkDateTime? ((after.year : Int) + p.interval) 2 29 = none →
       getNextOccurrence p after =
         (match mkDateTime? ((after.year : Int) + p.interval) 2 28 with
          | some nd => applyTimesOfDay p nd after
          | none => none)) := by
  refine ⟨⟨rfl, by decide, rfl⟩, ?_, ?_, ?_⟩
  · intro p after m d nd hrt hmoy hm0 hdom hd0 hed hmk hlt
    unfold getNextOccurrence dispatchNext nextYearly
    rw [hed, hrt, hmoy, hdom]
    rw [if_neg (by simp [optTruthy, hm0, hd0])]
    dsimp only [Option.getD]
    rw [hmk]
    dsimp only
    rw [hlt, if_pos rfl]
  · intro p after m d nd hrt hmoy hm0 hdom hd0 hed hfirst hmk
    unfold getNextOccurrence dispatchNext nextYearly
    rw [hed, hrt, hmoy, hdom]
    rw [if_neg (by simp [optTruthy, hm0, hd0])]
    dsimp only [Option.getD]
    cases h0 : mkDateTime? (after.year : Int) m d with
    | some nd0 =>
      dsimp only
      rw [hfirst nd0 h0, if_neg (by simp)]
      rw [hmk]
    | none =>
      dsimp only
      rw [hmk]
  · intro p after hrt hmoy hdom hed hfirst hmk
    unfold getNextOccurrence dispatchNext nextYearly
    rw [hed, hrt, hmoy, hdom]
    rw [if_neg (by simp [optTruthy])]
    dsimp only [Option.getD]
    cases h0 : mkDateTime? (after.year : Int) 2 29 with
    | some nd0 =>
      dsimp only
      rw [hfirst nd0 h0, if_neg (by simp)]
      rw [hmk]
      rw [if_pos ⟨rfl, rfl⟩]
    | none =>
      dsimp only
      rw [hmk]
      rw [if_pos ⟨rfl, rfl⟩]

theorem c7_yearly_behavior_witness :
    getNextOccurrence y229 ⟨2024, 1, 1, 0, 0, 0, 0⟩ =
      applyTimesOfDay y229 ⟨2024, 2, 29, 0, 0, 0, 0⟩ ⟨2024, 1, 1, 0, 0, 0, 0⟩ :=
  c7_yearly_behavior.2.1 y229 ⟨2024, 1, 1, 0, 0, 0, 0⟩ 2 29 ⟨2024, 2, 29, 0, 0, 0, 0⟩
    rfl rfl (by decide) rfl (by decide) rfl (by decide) (by decide)

/-- C8: occurrences_in_range repeatedly calls next_occurrence from
probe = start, stops on none, on exceeding end, or when max_count (resp.
pattern.max_occurrences when set) results are collected, advancing the probe
by one minute when times_of_day has more than one entry and by one day
otherwise; concretely daily(["09:00","21:00"]) over
[2025-10-14T08:00, 2025-10-16T08:00) with max_count=100 returns exactly the
four instants 10-14 09:00, 10-14 21:00, 10-15 09:00, 10-15 21:00. -/
theorem c8_occurrences_in_range :
    (RecurrencePattern.daily 1 (some ["09:00", "21:00"]) = .ok d0921 ∧
     getOccurrencesInRange d0921 ⟨2025, 10, 14, 8, 0, 0, 0⟩ ⟨2025, 10, 16, 8, 0, 0, 0⟩ 100 =
       [⟨2025, 10, 14, 9, 0, 0, 0⟩, ⟨2025, 10, 14, 21, 0, 0, 0⟩,
        ⟨2025, 10, 15, 9, 0, 0, 0⟩, ⟨2025, 10, 15, 21, 0, 0, 0⟩]) ∧
    (∀ (p : RecurrencePattern) (s e : DateTime) (c : Int),
       (getOccurrencesInRange p s e c).length ≤ c.toNat) ∧
    (∀ (p : RecurrencePattern) (s e : DateTime) (c : Int) (o : DateTime),
       o ∈ getOccurrencesInRange p s e c → dtLt e o = false) ∧
    (∀ (p : RecurrencePattern) (s e : DateTime) (c mo : Int),
       p.max_occurrences = some mo → 0 < mo →
       (getOccurrencesInRange p s e c).length ≤ mo.toNat) := by
  refine ⟨⟨rfl, by decide⟩, ?_, ?_, ?_⟩
  · intro p s e c
    exact getOccAux_length p e c.toNat s 0
  · intro p s e c o ho
    exact getOccAux_mem_le p e c.toNat s 0 o ho
  · intro p s e c mo hmo hpos
    have h1 := getOccAux_maxOcc hmo hpos e c.toNat s 0 (by omega)
    have h2 : (mo - 0).toNat = mo.toNat := by omega
    rw [h2] at h1
    exact h1

theorem c8_occurrences_in_range_witness :
    (getOccurrencesInRange c9sample ⟨2025, 10, 14, 8, 0, 0, 0⟩
      ⟨2025, 10, 16, 8, 0, 0, 0⟩ 100).length ≤ (7 : Int).toNat :=
  c8_occurrences_in_range.2.2.2 c9sample ⟨2025, 10, 14, 8, 0, 0, 0⟩
    ⟨2025, 10, 16, 8, 0, 0, 0⟩ 100 7 rfl (by decide)

theorem construct_self (p : RecurrencePattern) (hval : validatePattern p = none) :
    RecurrencePattern.construct p.recurrence_type p.interval (some p.weekdays)
      (some p.times_of_day) p.day_of_month p.month_of_year p.monthly_type
      p.weekday p.week_of_month p.end_date p.max_occurrences p.timezone = .ok p := by
  unfold RecurrencePattern.construct
  simp only [Option.getD_some]
  show (match validatePattern p with
        | some msg => Except.error msg
        | none => Except.ok p) = Except.ok p
  rw [hval]

/-- C9: for every validly constructed pattern (whose end_date, when present,
is a componentwise-valid datetime, as Python's datetime type guarantees),
deserialize(serialize(P)) succeeds and yields a pattern equal to P field for
field, with end_date round-tripping through its ISO-8601 form. -/
theorem c9_dict_roundtrip (p : RecurrencePattern)
    (hval : validatePattern p = none)
    (hed : ∀ ed, p.end_date = some ed → ed.isValid) :
    RecurrencePattern.fromDict p.toDict = some p := by
  unfold RecurrencePattern.toDict RecurrencePattern.fromDict
  rw [recurrenceTypeValue_roundtrip, monthlyTypeValue_roundtrip]
  simp only [Option.bind_eq_bind, Option.some_bind]
  cases hpe : p.end_date with
  | none =>
    simp only [Option.map_none']
    rw [← hpe, construct_self p hval]
  | some ed =>
    simp only [Option.map_some']
    rw [if_neg (isoformat_ne_empty ed)]
    rw [fromiso_iso (hed ed hpe)]
    simp only [Option.map_some', Option.some_bind]
    rw [← hpe, construct_self p hval]

theorem c9_dict_roundtrip_witness :
    RecurrencePattern.fromDict c9sample.toDict = some c9sample :=
  c9_dict_roundtrip c9sample rfl (fun ed h => by cases h; decide)

/-- C10: for every pattern with non-empty times_of_day and every instant
`after`, any instant returned by next_occurrence has seconds and microseconds
equal to zero: every time-of-day application truncates below the minute. -/
theorem c10_returned_instants_truncate_below_minute :
    ∀ (p : RecurrencePattern) (after r : DateTime), p.times_of_day ≠ [] →
      getNextOccurrence p after = some r → r.second = 0 ∧ r.microsecond = 0 := by
  intro p after r hts hres
  have hdisp : ∀ (h2 : dispatchNext p after = some r),
      r.second = 0 ∧ r.microsecond = 0 := by
    intro hres2
    unfold dispatchNext at hres2
    cases hrt : p.recurrence_type <;> rw [hrt] at hres2 <;> dsimp only at hres2
    case daily =>
      unfold nextDaily at hres2
      rw [if_neg hts] at hres2
      split at hres2
      · cases hres2
      · exact ((Option.some.injEq _ _).mp hres2) ▸ (findTodayTime_props (by assumption)).2
      · split at hres2
        · cases hres2
        · split at hres2
          · cases hres2
          · split at hres2
            · cases (Option.some.injEq _ _).mp hres2
              exact ⟨rfl, rfl⟩
            · cases hres2
    case weekly =>
      unfold nextWeekly at hres2
      split at hres2
      · cases hres2
      · dsimp only at hres2
        split at hres2
        · exact applyTimesOfDay_zeroSec hts hres2
        · exact applyTimesOfDay_zeroSec hts hres2
    case monthly =>
      unfold nextMonthly at hres2
      split at hres2
      · unfold nextMonthlyByDate at hres2
        dsimp only at hres2
        split at hres2
        · split at hres2
          · exact applyTimesOfDay_zeroSec hts hres2
          · split at hres2
            · exact applyTimesOfDay_zeroSec hts hres2
            · cases hres2
        · split at hres2
          · exact applyTimesOfDay_zeroSec hts hres2
          · cases hres2
      · split at hres2
        · unfold nextMonthlyByWeekday at hres2
          split at hres2
          · dsimp only at hres2
            split at hres2
            · split at hres2
              · exact applyTimesOfDay_zeroSec hts hres2
              · split at hres2
                · exact applyTimesOfDay_zeroSec hts hres2
                · cases hres2
            · split at hres2
              · exact applyTimesOfDay_zeroSec hts hres2
              · cases hres2
          · cases hres2
        · split at hres2
          · unfold nextMonthlyLastDay at hres2
            dsimp only at hres2
            split at hres2
            · split at hres2
              · exact applyTimesOfDay_zeroSec hts hres2
              · split at hres2
                · exact applyTimesOfDay_zeroSec hts hres2
                · cases hres2
            · split at hres2
              · exact applyTimesOfDay_zeroSec hts hres2
              · cases hres2
          · cases hres2
    case yearly =>
      unfold nextYearly at hres2
      split at hres2
      · cases hres2
      · dsimp only at hres2
        split at hres2
        · split at hres2
          · exact applyTimesOfDay_zeroSec hts hres2
          · split at hres2
            · exact applyTimesOfDay_zeroSec hts hres2
            · split at hres2
              · split at hres2
                · exact applyTimesOfDay_zeroSec hts hres2
                · cases hres2
              · cases hres2
        · split at hres2
          · exact applyTimesOfDay_zeroSec hts hres2
          · split at hres2
            · split at hres2
              · exact applyTimesOfDay_zeroSec hts hres2
              · cases hres2
            · cases hres2
    case custom => cases hres2
  unfold getNextOccurrence at hres
  split at hres
  · split at hres
    · exact hdisp hres
    · cases hres
  · exact hdisp hres

theorem c10_returned_instants_truncate_below_minute_witness :
    d0921.times_of_day ≠ [] ∧
    getNextOccurrence d0921 ⟨2025, 10, 14, 8, 0, 0, 0⟩ =
      some ⟨2025, 10, 14, 9, 0, 0, 0⟩ ∧
    (⟨2025, 10, 14, 9, 0, 0, 0⟩ : DateTime).second = 0 ∧
    (⟨2025, 10, 14, 9, 0, 0, 0⟩ : DateTime).microsecond = 0 :=
  ⟨by decide, by decide,
   c10_returned_instants_truncate_below_minute d0921 ⟨2025, 10, 14, 8, 0, 0, 0⟩
     ⟨2025, 10, 14, 9, 0, 0, 0⟩ (by decide) (by decide)⟩
